import Mathlib

/-!
Shallow embedding of the ezutil transaction coordinator, generic CRUD
repository and query scopes (Go, GORM-based), together with proofs of the
specification claims.

Machine state is passed explicitly: a `DBState` holds the committed rows of
the store and the set of transactions ever begun on it; a `GoContext` models
the Go `context.Context` chain restricted to the single private key
`config.ContextKeyGormTx` (values added by `context.WithValue` shadow older
ones, so lookup returns the newest).  Errors are strings, mirroring the
messages in the source; `eris.Wrap(err, msg)` is modelled as prefixing
`msg ++ ": "`.
-/

namespace Ezutil

/-! ## Context carrier (Go `context.Context`, key `config.ContextKeyGormTx`) -/

/-- A value stored in a context under the transaction key: either a
transaction handle (a `*gorm.DB` holding an open transaction, identified
here by its index in the database state) or a value of some other type
(which makes the type assertion in `GetTxFromContext` fail). -/
inductive CtxVal where
  | txHandle (id : Nat)
  | otherVal
deriving DecidableEq, Repr

/-- The chain of values stored under `config.ContextKeyGormTx`, newest
first.  `context.WithValue` prepends; `ctx.Value` returns the newest. -/
structure GoContext where
  txValues : List CtxVal
deriving DecidableEq, Repr

/-- Go `ctx.Value(config.ContextKeyGormTx)`: the newest value, if any. -/
def GoContext.valueTx (ctx : GoContext) : Option CtxVal :=
  ctx.txValues.head?

/-- Go `context.WithValue(ctx, config.ContextKeyGormTx, v)`. -/
def GoContext.withTxValue (ctx : GoContext) (v : CtxVal) : GoContext :=
  ⟨v :: ctx.txValues⟩

/-! ## Store state -/

/-- Lifecycle status of one transaction. -/
inductive TxStatus where
  | active
  | committed
  | rolledBack
deriving DecidableEq, Repr

/-- One transaction ever begun on the store.  `pending` are the rows written
through it and not yet committed; `failCommit` / `failRollback` model a
driver-level failure of the corresponding call (connection loss,
constraint violation surfaced at commit time). -/
structure TxRecord (T : Type) where
  status : TxStatus
  pending : List T
  failCommit : Bool
  failRollback : Bool
deriving DecidableEq, Repr

/-- The relational store: committed rows, all transactions ever begun
(a transaction handle is an index into `txs`), and fault flags modelling
driver failures of `Begin` and of query/exec calls. -/
structure DBState (T : Type) where
  committed : List T
  txs : List (TxRecord T)
  beginErr : Bool
  ioFail : Bool
deriving DecidableEq, Repr

/-- The exact error string `database/sql` returns when using a finished
transaction, matched verbatim by `GormTransactor.Rollback`. -/
def errTxDone : String := "sql: transaction has already been committed or rolled back"

/-- `config.MsgTransactionError`. -/
def msgTransactionError : String := "error processing transaction"

/-- `eris.Wrap(err, msg)`: wrap a cause with a context message. -/
def erisWrap (e msg : String) : String := msg ++ ": " ++ e

/-- Driver `Begin`: allocate a fresh active transaction (its handle is the
index of the new record) unless the driver fails. -/
def sqlBegin {T : Type} (st : DBState T) : DBState T × Except String Nat :=
  if st.beginErr then (st, .error "driver: failed to begin transaction")
  else ({ st with txs := st.txs ++ [⟨.active, [], false, false⟩] }, .ok st.txs.length)

/-- Replace transaction record `id` in the state. -/
def setTx {T : Type} (st : DBState T) (id : Nat) (r : TxRecord T) : DBState T :=
  { st with txs := st.txs.set id r }

/-- Driver `Commit` on handle `id`: an already-finished transaction yields
`errTxDone`; a driver failure aborts the transaction; otherwise the pending
rows become committed rows. -/
def sqlCommit {T : Type} (st : DBState T) (id : Nat) : DBState T × Option String :=
  match st.txs[id]? with
  | none => (st, some "sql: unknown transaction")
  | some r =>
    if r.status ≠ .active then (st, some errTxDone)
    else if r.failCommit then
      (setTx st id { r with status := .rolledBack, pending := [] }, some "driver: commit failed")
    else
      ({ setTx st id { r with status := .committed, pending := [] } with
          committed := st.committed ++ r.pending }, none)

/-- Driver `Rollback` on handle `id`: an already-finished transaction yields
`errTxDone`; otherwise the pending rows are discarded (a driver failure is
reported but the transaction is finished either way). -/
def sqlRollback {T : Type} (st : DBState T) (id : Nat) : DBState T × Option String :=
  match st.txs[id]? with
  | none => (st, some "sql: unknown transaction")
  | some r =>
    if r.status ≠ .active then (st, some errTxDone)
    else if r.failRollback then
      (setTx st id { r with status := .rolledBack, pending := [] }, some "driver: rollback failed")
    else
      (setTx st id { r with status := .rolledBack, pending := [] }, none)

/-! ## internal/transactor.go and gorm_transactor.go -/

/-- `internal.GetTxFromContext(ctx)`: look up the value under
`config.ContextKeyGormTx`; absent means `(nil, nil)`; a value other than a
`*gorm.DB` is an error; otherwise the handle is returned.  The pair models
Go's two return values `(tx, err)`. -/
def internalGetTxFromContext (ctx : GoContext) : Option Nat × Option String :=
  match ctx.valueTx with
  | some v =>
    match v with
    | .txHandle id => (some id, none)
    | .otherVal => (none, some "error getting tx from ctx")
  | none => (none, none)

/-- `ezutil.GetTxFromContext(ctx)`: the public wrapper delegating to
`internal.GetTxFromContext`. -/
def GetTxFromContext (ctx : GoContext) : Option Nat × Option String :=
  internalGetTxFromContext ctx

/-- `internal.GormTransactor.Begin(ctx)`: begin a transaction on the base
connection (never consulting the context for an existing handle) and attach
the new handle to a derived context. -/
def GormTransactor.Begin {T : Type} (st : DBState T) (ctx : GoContext) :
    DBState T × Except String GoContext :=
  match sqlBegin st with
  | (st', .error e) => (st', .error (erisWrap e msgTransactionError))
  | (st', .ok id) => (st', .ok (ctx.withTxValue (.txHandle id)))

/-- `internal.GormTransactor.Commit(ctx)`: a context-lookup error is
returned as is; no handle is a successful no-op; otherwise the handle is
committed and a commit failure is wrapped with `config.MsgTransactionError`. -/
def GormTransactor.Commit {T : Type} (st : DBState T) (ctx : GoContext) :
    DBState T × Option String :=
  match GetTxFromContext ctx with
  | (_, some e) => (st, some e)
  | (some id, none) =>
    match sqlCommit st id with
    | (st', some e) => (st', some (erisWrap e msgTransactionError))
    | (st', none) => (st', none)
  | (none, none) => (st, none)

/-- `internal.GormTransactor.Rollback(ctx)`: returns no error, only a list
of log lines.  A lookup error or a missing handle is logged; a rollback
failure matching the store's "transaction already finished" message is
silently ignored; any other rollback failure is logged (the source logs the
error type and the error). -/
def GormTransactor.Rollback {T : Type} (st : DBState T) (ctx : GoContext) :
    DBState T × List String :=
  match GetTxFromContext ctx with
  | (_, some e) => (st, ["rollback error: " ++ e])
  | (none, none) => (st, ["no transaction is running"])
  | (some id, none) =>
    match sqlRollback st id with
    | (st', some e) =>
      if e = errTxDone then (st', [])
      else (st', ["error: driver error type", "rollback error: " ++ e])
    | (st', none) => (st', [])

/-- `ezutil.WithinTransaction(ctx, transactor, serviceFn)` with the
`GormTransactor` implementation: begin, defer an unconditional rollback,
run the service function on the derived context, wrap its error or commit.
The deferred rollback also runs after a successful commit (where it hits
the "transaction already finished" path and is silently ignored). -/
def WithinTransaction {T : Type} (st : DBState T) (ctx : GoContext)
    (serviceFn : GoContext → DBState T → DBState T × Option String) :
    DBState T × Option String :=
  match GormTransactor.Begin st ctx with
  | (st1, .error e) => (st1, some (erisWrap e "error starting transaction"))
  | (st1, .ok ctx1) =>
    match serviceFn ctx1 st1 with
    | (st2, some e) =>
      ((GormTransactor.Rollback st2 ctx1).1,
        some (erisWrap e "error executing service function"))
    | (st2, none) =>
      match GormTransactor.Commit st2 ctx1 with
      | (st3, ce) => ((GormTransactor.Rollback st3 ctx1).1, ce)

/-! ## sql_utils.go -/

/-- `GetTimeRangeClause(timeCol, start, end)` from `sql_utils.go`.
`time.Time` is modelled as `Nat`, with `IsZero` meaning `= 0`. -/
def GetTimeRangeClause (timeCol : String) (start endt : Nat) : String × List Nat :=
  if start = 0 ∧ endt = 0 then ("", [])
  else if start = 0 then (timeCol ++ " <= ?", [endt])
  else if endt = 0 then (timeCol ++ " >= ?", [start])
  else (timeCol ++ " BETWEEN ? AND ?", [start, endt])

/-! ## internal/gorm.go and gorm_scopes.go -/

/-- One character of the `IsValidFieldName` allow-list: letters, digits,
underscore, dot. -/
def isAllowedFieldChar (c : Char) : Bool :=
  (decide ('a' ≤ c) && decide (c ≤ 'z')) ||
  (decide ('A' ≤ c) && decide (c ≤ 'Z')) ||
  (decide ('0' ≤ c) && decide (c ≤ '9')) ||
  c = '_' || c = '.'

/-- `internal.IsValidFieldName`: every rune is in the allow-list, and the
field is non-empty.  (In Go the final check is `len(field) > 0` in bytes,
but a string all of whose runes pass the ASCII allow-list has equal byte
and rune length.) -/
def IsValidFieldName (field : String) : Bool :=
  field.data.all isAllowedFieldChar && !field.data.isEmpty

/-- The observable part of a GORM query-builder value (`*gorm.DB`) that the
scope functions act on: the accumulated ORDER BY clauses and the errors
accumulated via `AddError`. -/
structure GormQuery where
  orders : List String
  errs : List String
deriving DecidableEq, Repr

/-- `db.AddError(err)`. -/
def GormQuery.addError (db : GormQuery) (e : String) : GormQuery :=
  { db with errs := db.errs ++ [e] }

/-- `db.Order(clause)`. -/
def GormQuery.order (db : GormQuery) (clause : String) : GormQuery :=
  { db with orders := db.orders ++ [clause] }

/-- `OrderBy(field, ascending)` from `gorm_scopes.go`, as the transformation
the returned scope applies to the query builder. -/
def OrderBy (field : String) (ascending : Bool) (db : GormQuery) : GormQuery :=
  if !IsValidFieldName field then
    db.addError ("invalid field name: " ++ field)
  else if ascending then
    db.order (field ++ " ASC")
  else
    db.order (field ++ " DESC")

/-! ## gorm_crud_repository.go

For the repository claims the query builder is viewed through its
result-set semantics: a connection (base or transaction handle) determines
the visible rows, and each scope is a transformation of the candidate row
list.  Collaborator ORM behavior that the source delegates to GORM
(matching a row against a non-zero-field example, `Save`, `Delete`) is a
parameter (`GormDriver`). -/

/-- The connection a repository call resolves: the base `*gorm.DB` of the
repository, or a transaction handle taken from the context. -/
inductive GormConn where
  | base
  | tx (id : Nat)
deriving DecidableEq, Repr

/-- Collaborator ORM semantics the source delegates to GORM:
`matchesExample` is the filter-by-struct primitive used by `db.Where`,
`saveRow` the full-row `db.Save`, `deleteRow` the hard `db.Delete`. -/
structure GormDriver (T : Type) where
  matchesExample : T → T → Bool
  saveRow : List T → T → List T
  deleteRow : List T → T → List T

/-- Rows visible through a connection: the base connection sees the
committed rows; a transaction additionally sees its own pending writes. -/
def visibleRows {T : Type} (st : DBState T) (conn : GormConn) : List T :=
  match conn with
  | .base => st.committed
  | .tx id =>
    match st.txs[id]? with
    | some r => st.committed ++ r.pending
    | none => st.committed

/-- Execute a write (a transformation of the target row list) through a
connection: on the base connection it applies to the committed rows (each
statement is its own implicit transaction); through a transaction handle
it is buffered in the transaction's pending rows.  A finished transaction
or a driver fault yields an error. -/
def connWrite {T : Type} (st : DBState T) (conn : GormConn)
    (f : List T → List T) : DBState T × Option String :=
  match conn with
  | .base =>
    if st.ioFail then (st, some "driver: exec failed")
    else ({ st with committed := f st.committed }, none)
  | .tx id =>
    match st.txs[id]? with
    | none => (st, some "sql: unknown transaction")
    | some r =>
      if r.status ≠ .active then (st, some errTxDone)
      else if st.ioFail then (st, some "driver: exec failed")
      else (setTx st id { r with pending := f r.pending }, none)

/-- Execute a query through a connection, applying a scope pipeline to the
visible rows.  A finished transaction or a driver fault yields an error. -/
def connRead {T : Type} (st : DBState T) (conn : GormConn)
    (pipeline : List T → List T) : Except String (List T) :=
  match conn with
  | .base =>
    if st.ioFail then .error "driver: query failed"
    else .ok (pipeline st.committed)
  | .tx id =>
    match st.txs[id]? with
    | none => .error "sql: unknown transaction"
    | some r =>
      if r.status ≠ .active then .error errTxDone
      else if st.ioFail then .error "driver: query failed"
      else .ok (pipeline (st.committed ++ r.pending))

/-- The error `gorm.ErrRecordNotFound` carries. -/
def errRecordNotFound : String := "record not found"

/-- GORM `First` through a connection: the first row of the scoped result
set, or `gorm.ErrRecordNotFound` when it is empty. -/
def connFirst {T : Type} (st : DBState T) (conn : GormConn)
    (pipeline : List T → List T) : Except String T :=
  match connRead st conn pipeline with
  | .error e => .error e
  | .ok rows =>
    match rows.head? with
    | some m => .ok m
    | none => .error errRecordNotFound

/-- `WhereBySpec(spec)` from `gorm_scopes.go` (`db.Where(&spec)`): keep the
rows matching the example entity on its non-zero fields. -/
def WhereBySpec {T : Type} (d : GormDriver T) (spec : T) :
    List T → List T :=
  fun rows => rows.filter (fun r => d.matchesExample spec r)

/-- Modelled from the spec: `DefaultOrder` (its source file is not under
src/; the spec calls it "a deterministic default ordering (newest first)")
reverses insertion order. -/
def DefaultOrder {T : Type} : List T → List T :=
  List.reverse

/-- `PreloadRelations(relations)` from `gorm_scopes.go`: eager-loads the
named relations; it does not change the set of rows returned. -/
def PreloadRelations {T : Type} (_relations : List String) :
    List T → List T :=
  id

/-- Modelled from the spec: `ForUpdate` (its source file is not under
src/; the spec calls it "a boolean toggle that appends a locking read
clause") does not change the set of rows returned. -/
def ForUpdate {T : Type} (_forUpdate : Bool) : List T → List T :=
  id

/-- `Specification` from `gorm_crud_repository.go`. -/
structure Specification (T : Type) where
  Model : T
  PreloadRelations : List String
  ForUpdate : Bool
deriving DecidableEq, Repr

/-- The scope pipeline `FindAll`/`FindFirst` apply, in source order:
filter by example, default order, relation preloading, optional locking. -/
def findPipeline {T : Type} (d : GormDriver T) (spec : Specification T) :
    List T → List T :=
  fun rows =>
    ForUpdate spec.ForUpdate
      (PreloadRelations spec.PreloadRelations
        (DefaultOrder (WhereBySpec d spec.Model rows)))

/-- `crudRepositoryGorm.checkZeroValue`: reject the zero value of `T`
(`reflect.DeepEqual(model, *new(T))`). -/
def checkZeroValue {T : Type} [Zero T] [DecidableEq T] (model : T) :
    Option String :=
  if model = 0 then some "model cannot be zero value" else none

/-- `crudRepositoryGorm.GetGormInstance(ctx)`: resolve, per call, the
connection to use — the transaction handle from the context if present,
the repository's base connection otherwise. -/
def GetGormInstance (ctx : GoContext) : Except String GormConn :=
  match GetTxFromContext ctx with
  | (_, some e) => .error e
  | (some id, none) => .ok (.tx id)
  | (none, none) => .ok .base

/-- `crudRepositoryGorm.Insert(ctx, model)`. -/
def Insert {T : Type} [Zero T] [DecidableEq T] (ctx : GoContext) (model : T)
    (st : DBState T) : DBState T × Except String T :=
  match checkZeroValue model with
  | some e => (st, .error e)
  | none =>
    match GetGormInstance ctx with
    | .error e => (st, .error e)
    | .ok conn =>
      match connWrite st conn (fun rows => rows ++ [model]) with
      | (st', some e) => (st', .error (erisWrap e "error inserting data"))
      | (st', none) => (st', .ok model)

/-- `crudRepositoryGorm.FindAll(ctx, spec)`. -/
def FindAll {T : Type} (d : GormDriver T) (ctx : GoContext)
    (spec : Specification T) (st : DBState T) : Except String (List T) :=
  match GetGormInstance ctx with
  | .error e => .error e
  | .ok conn =>
    match connRead st conn (findPipeline d spec) with
    | .error e => .error (erisWrap e "error querying data")
    | .ok models => .ok models

/-- `crudRepositoryGorm.FindFirst(ctx, spec)`: the store's
record-not-found outcome is mapped to the zero value with no error. -/
def FindFirst {T : Type} [Zero T] (d : GormDriver T) (ctx : GoContext)
    (spec : Specification T) (st : DBState T) : Except String T :=
  match GetGormInstance ctx with
  | .error e => .error e
  | .ok conn =>
    match connFirst st conn (findPipeline d spec) with
    | .error e =>
      if e = errRecordNotFound then .ok 0
      else .error (erisWrap e "error querying data")
    | .ok m => .ok m

/-- `crudRepositoryGorm.Update(ctx, model)` (`db.Save`: full-row replace). -/
def Update {T : Type} [Zero T] [DecidableEq T] (d : GormDriver T)
    (ctx : GoContext) (model : T) (st : DBState T) :
    DBState T × Except String T :=
  match checkZeroValue model with
  | some e => (st, .error e)
  | none =>
    match GetGormInstance ctx with
    | .error e => (st, .error e)
    | .ok conn =>
      match connWrite st conn (fun rows => d.saveRow rows model) with
      | (st', some e) => (st', .error (erisWrap e "error updating data"))
      | (st', none) => (st', .ok model)

/-- `crudRepositoryGorm.Delete(ctx, model)` (`db.Unscoped().Delete`: a
permanent delete). -/
def Delete {T : Type} [Zero T] [DecidableEq T] (d : GormDriver T)
    (ctx : GoContext) (model : T) (st : DBState T) :
    DBState T × Option String :=
  match checkZeroValue model with
  | some e => (st, some e)
  | none =>
    match GetGormInstance ctx with
    | .error e => (st, some e)
    | .ok conn =>
      match connWrite st conn (fun rows => d.deleteRow rows model) with
      | (st', some e) => (st', some (erisWrap e "error deleting data"))
      | (st', none) => (st', none)

/-- `crudRepositoryGorm.BatchInsert(ctx, models)`: an empty list is a
caller error, rejected before any connection is resolved. -/
def BatchInsert {T : Type} (ctx : GoContext) (models : List T)
    (st : DBState T) : DBState T × Except String (List T) :=
  if models.length < 1 then (st, .error "inserted models cannot be empty")
  else
    match GetGormInstance ctx with
    | .error e => (st, .error e)
    | .ok conn =>
      match connWrite st conn (fun rows => rows ++ models) with
      | (st', some e) => (st', .error (erisWrap e "error batch inserting data"))
      | (st', none) => (st', .ok models)

/-- A service function for the unit-of-work claims: insert the given rows
through the repository (routed by the context it receives, as service code
does via `GetTxFromContext`), then finish with the given result.  A failing
insert aborts with its error. -/
def insertAll {T : Type} [Zero T] [DecidableEq T] (rows : List T)
    (res : Option String) (ctx : GoContext) (st : DBState T) :
    DBState T × Option String :=
  match rows with
  | [] => (st, res)
  | m :: ms =>
    match Insert ctx m st with
    | (st', .error e) => (st', some e)
    | (st', .ok _) => insertAll ms res ctx st'

/-- Starting state for the nested unit-of-work scenario: one transaction
(handle 0) already open with a pending row. -/
def nestedStart : DBState Nat := ⟨[], [⟨.active, [5], false, false⟩], false, false⟩

/-- A context already carrying Transaction Handle 0. -/
def nestedCtx : GoContext := ⟨[CtxVal.txHandle 0]⟩

/-- A connection on which queries succeed: no driver fault, and if it is a
transaction handle, the transaction exists and is still active. -/
def connHealthy {T : Type} (st : DBState T) (conn : GormConn) : Bool :=
  match conn with
  | .base => !st.ioFail
  | .tx id =>
    !st.ioFail &&
      (match st.txs[id]? with
       | some r => decide (r.status = .active)
       | none => false)

end Ezutil

namespace Ezutil

/-! ## Claim theorems: SQL utilities and scopes -/

/-- C8: `GetTimeRangeClause(col, zero, zero)` returns the empty clause and
no arguments; `(col, t1, zero)` with `t1` non-zero returns `col >= ?` with
`[t1]`; `(col, zero, t2)` with `t2` non-zero returns `col <= ?` with `[t2]`;
`(col, t1, t2)` with both non-zero returns `col BETWEEN ? AND ?` with
`[t1, t2]`. -/
theorem getTimeRangeClause_cases (col : String) (t1 t2 : Nat)
    (h1 : t1 ≠ 0) (h2 : t2 ≠ 0) :
    GetTimeRangeClause col 0 0 = ("", []) ∧
    GetTimeRangeClause col t1 0 = (col ++ " >= ?", [t1]) ∧
    GetTimeRangeClause col 0 t2 = (col ++ " <= ?", [t2]) ∧
    GetTimeRangeClause col t1 t2 = (col ++ " BETWEEN ? AND ?", [t1, t2]) := by
  refine ⟨?_, ?_, ?_, ?_⟩ <;> simp [GetTimeRangeClause, h1, h2]

/-- Witness for C8 at `col = "created_at"`, `t1 = 1`, `t2 = 2`. -/
theorem getTimeRangeClause_cases_witness :
    GetTimeRangeClause "created_at" 0 0 = ("", []) ∧
    GetTimeRangeClause "created_at" 1 0 = ("created_at" ++ " >= ?", [1]) ∧
    GetTimeRangeClause "created_at" 0 2 = ("created_at" ++ " <= ?", [2]) ∧
    GetTimeRangeClause "created_at" 1 2 = ("created_at" ++ " BETWEEN ? AND ?", [1, 2]) :=
  getTimeRangeClause_cases "created_at" 1 2 (by decide) (by decide)

/-- C9 counterexample: the claim as stated quantifies over every field
string whose characters all belong to the allow-list, which includes the
empty string; but `IsValidFieldName` also requires non-emptiness, so
`OrderBy "" true` records a query error and performs no ordering instead
of appending an `" ASC"` clause. -/
theorem orderBy_empty_field_counterexample :
    (∀ c ∈ "".data, isAllowedFieldChar c) ∧
    OrderBy "" true ⟨[], []⟩ ≠ GormQuery.order ⟨[], []⟩ ("" ++ " ASC") ∧
    OrderBy "" true ⟨[], []⟩ = ⟨[], ["invalid field name: "]⟩ := by
  refine ⟨?_, ?_, ?_⟩ <;> decide

/-- C9 (amended): for every field string containing a character outside
letters, digits, underscore, and dot, `OrderBy field asc` records a query
error on the builder and performs no ordering; for every NON-EMPTY field
string whose characters all belong to that allow-list, `OrderBy` appends
`field ASC` when `asc` is true and `field DESC` when `asc` is false. -/
theorem orderBy_validates_field (field : String) (db : GormQuery) :
    ((∃ c ∈ field.data, ¬ isAllowedFieldChar c) →
      (∀ asc : Bool, OrderBy field asc db =
        { db with errs := db.errs ++ ["invalid field name: " ++ field] })) ∧
    (field ≠ "" → (∀ c ∈ field.data, isAllowedFieldChar c) →
      OrderBy field true db = { db with orders := db.orders ++ [field ++ " ASC"] } ∧
      OrderBy field false db = { db with orders := db.orders ++ [field ++ " DESC"] }) := by
  constructor
  · rintro ⟨c, hc, hbad⟩ asc
    have hallb : field.data.all isAllowedFieldChar = false := by
      cases hall : field.data.all isAllowedFieldChar with
      | false => rfl
      | true => exact absurd (List.all_eq_true.mp hall c hc) hbad
    have hinvalid : IsValidFieldName field = false := by
      simp [IsValidFieldName, hallb]
    simp [OrderBy, hinvalid, GormQuery.addError]
  · intro hne hall
    have hnonempty : field.data ≠ [] := by
      intro h
      exact hne (by cases field with | mk l => simp_all)
    have hvalid : IsValidFieldName field = true := by
      simp only [IsValidFieldName, Bool.and_eq_true, List.all_eq_true]
      exact ⟨hall, by simp [List.isEmpty_iff, hnonempty]⟩
    constructor <;> simp [OrderBy, hvalid, GormQuery.order]

/-- Witness for C9 at field names with an injection attempt and a clean
column name. -/
theorem orderBy_validates_field_witness :
    OrderBy "name; DROP TABLE x" true ⟨[], []⟩ =
      ⟨[], ["invalid field name: " ++ "name; DROP TABLE x"]⟩ ∧
    OrderBy "users.age" true ⟨[], []⟩ = ⟨["users.age" ++ " ASC"], []⟩ ∧
    OrderBy "users.age" false ⟨[], []⟩ = ⟨["users.age" ++ " DESC"], []⟩ := by
  have h := orderBy_validates_field "users.age" ⟨[], []⟩
  have hbad := (orderBy_validates_field "name; DROP TABLE x" ⟨[], []⟩).1
    ⟨';', by decide, by decide⟩ true
  have hgood := h.2 (by decide) (by decide)
  exact ⟨hbad, hgood.1, hgood.2⟩

/-! ## Claim theorems: transactor -/

/-- C10: the public `GetTxFromContext` returns a nil handle and nil error
when no value is stored under the transaction key; it returns a non-nil
error exactly when the stored value is not a transaction handle, and then
the returned handle is nil. -/
theorem getTxFromContext_absent_nil_mismatch_error (ctx : GoContext) :
    (ctx.valueTx = none → GetTxFromContext ctx = (none, none)) ∧
    ((GetTxFromContext ctx).2 ≠ none ↔ ctx.valueTx = some .otherVal) ∧
    ((GetTxFromContext ctx).2 ≠ none → (GetTxFromContext ctx).1 = none) := by
  rcases h : ctx.valueTx with _ | v
  · simp [GetTxFromContext, internalGetTxFromContext, h]
  · cases v <;> simp [GetTxFromContext, internalGetTxFromContext, h]

/-- Witness for C10 on the empty context and on a context holding a value
of the wrong type under the transaction key. -/
theorem getTxFromContext_absent_nil_mismatch_error_witness :
    GetTxFromContext ⟨[]⟩ = (none, none) ∧
    (GetTxFromContext ⟨[CtxVal.otherVal]⟩).1 = none :=
  ⟨(getTxFromContext_absent_nil_mismatch_error ⟨[]⟩).1 rfl,
   (getTxFromContext_absent_nil_mismatch_error ⟨[CtxVal.otherVal]⟩).2.2 (by decide)⟩

/-- C4: `Commit` on a context with no attached handle is a no-op returning
no error; on a context with an attached handle it returns no error exactly
when the underlying commit succeeds (the transaction is still active and
the driver does not fail), and any error it returns is wrapped with
`config.MsgTransactionError`. -/
theorem commit_noop_without_tx_and_wraps_failure {T : Type}
    (st : DBState T) (ctx : GoContext) :
    (ctx.valueTx = none → GormTransactor.Commit st ctx = (st, none)) ∧
    (∀ id r, ctx.valueTx = some (.txHandle id) → st.txs[id]? = some r →
      (((GormTransactor.Commit st ctx).2 = none) ↔
        (r.status = .active ∧ r.failCommit = false)) ∧
      (∀ s, (GormTransactor.Commit st ctx).2 = some s →
        ∃ e, s = erisWrap e msgTransactionError)) := by
  constructor
  · intro h
    simp [GormTransactor.Commit, GetTxFromContext, internalGetTxFromContext, h]
  · intro id r hctx hr
    rcases r with ⟨status, pending, failCommit, failRollback⟩
    cases status <;> cases failCommit <;>
      simp [GormTransactor.Commit, GetTxFromContext, internalGetTxFromContext,
        hctx, sqlCommit, hr, erisWrap]

/-- Witness for C4: committing through a context with no handle succeeds,
committing an active healthy transaction succeeds, and committing an
already-finished transaction reports a wrapped error. -/
theorem commit_noop_without_tx_and_wraps_failure_witness :
    GormTransactor.Commit (T := Nat) ⟨[], [⟨.active, [3], false, false⟩], false, false⟩ ⟨[]⟩ =
      (⟨[], [⟨.active, [3], false, false⟩], false, false⟩, none) ∧
    (GormTransactor.Commit (T := Nat)
      ⟨[], [⟨.active, [3], false, false⟩], false, false⟩ ⟨[.txHandle 0]⟩).2 = none ∧
    (GormTransactor.Commit (T := Nat)
      ⟨[], [⟨.committed, [], false, false⟩], false, false⟩ ⟨[.txHandle 0]⟩).2 ≠ none := by
  refine ⟨?_, ?_, ?_⟩
  · exact (commit_noop_without_tx_and_wraps_failure (T := Nat)
      ⟨[], [⟨.active, [3], false, false⟩], false, false⟩ ⟨[]⟩).1 rfl
  · exact ((commit_noop_without_tx_and_wraps_failure (T := Nat)
      ⟨[], [⟨.active, [3], false, false⟩], false, false⟩ ⟨[.txHandle 0]⟩).2
      0 ⟨.active, [3], false, false⟩ rfl rfl).1.mpr ⟨rfl, rfl⟩
  · intro h
    have := ((commit_noop_without_tx_and_wraps_failure (T := Nat)
      ⟨[], [⟨.committed, [], false, false⟩], false, false⟩ ⟨[.txHandle 0]⟩).2
      0 ⟨.committed, [], false, false⟩ rfl rfl).1.mp h
    exact absurd this.1 (by decide)

/-- C5: `Rollback` never propagates an error (it returns only log lines):
a rollback of an already-finished transaction is detected by matching the
store's "transaction already finished" message and silently ignored with no
state change and no log; an absent handle is a logged no-op; a context
lookup failure is logged; and any other rollback failure is logged but, by
the shape of the operation, never returned or raised. -/
theorem rollback_never_propagates {T : Type} (st : DBState T) (ctx : GoContext) :
    (∀ id r, ctx.valueTx = some (.txHandle id) → st.txs[id]? = some r →
      r.status ≠ .active → GormTransactor.Rollback st ctx = (st, [])) ∧
    (ctx.valueTx = none →
      GormTransactor.Rollback st ctx = (st, ["no transaction is running"])) ∧
    (ctx.valueTx = some .otherVal →
      GormTransactor.Rollback st ctx =
        (st, ["rollback error: " ++ "error getting tx from ctx"])) ∧
    (∀ id r, ctx.valueTx = some (.txHandle id) → st.txs[id]? = some r →
      r.status = .active → r.failRollback = true →
      (GormTransactor.Rollback st ctx).2 ≠ []) := by
  refine ⟨?_, ?_, ?_, ?_⟩
  · intro id r hctx hr hfin
    simp [GormTransactor.Rollback, GetTxFromContext, internalGetTxFromContext,
      hctx, sqlRollback, hr, hfin]
  · intro h
    simp [GormTransactor.Rollback, GetTxFromContext, internalGetTxFromContext, h]
  · intro h
    simp [GormTransactor.Rollback, GetTxFromContext, internalGetTxFromContext, h]
  · intro id r hctx hr hact hfail
    simp [GormTransactor.Rollback, GetTxFromContext, internalGetTxFromContext,
      hctx, sqlRollback, hr, hact, hfail, errTxDone]

/-- Witness for C5: a second rollback of an already rolled-back transaction
is silent, and rollback on a context without a handle only logs. -/
theorem rollback_never_propagates_witness :
    GormTransactor.Rollback (T := Nat)
      ⟨[], [⟨.rolledBack, [], false, false⟩], false, false⟩ ⟨[.txHandle 0]⟩ =
      (⟨[], [⟨.rolledBack, [], false, false⟩], false, false⟩, []) ∧
    GormTransactor.Rollback (T := Nat) ⟨[], [], false, false⟩ ⟨[]⟩ =
      (⟨[], [], false, false⟩, ["no transaction is running"]) :=
  ⟨(rollback_never_propagates (T := Nat)
      ⟨[], [⟨.rolledBack, [], false, false⟩], false, false⟩ ⟨[.txHandle 0]⟩).1
      0 ⟨.rolledBack, [], false, false⟩ rfl rfl (by decide),
   (rollback_never_propagates (T := Nat) ⟨[], [], false, false⟩ ⟨[]⟩).2.1 rfl⟩

/-- C1 is violated by the code: invoked with a context that already carries
Transaction Handle 0, `WithinTransaction` does not detect it — `Begin`
never consults the context — so it opens a second transaction (handle 1),
attaches a second handle to the derived context, runs the service function
against transaction 1 rather than transaction 0, and commits transaction 1
itself while transaction 0 is still active. -/
theorem withinTransaction_nested_opens_second_transaction :
    (GormTransactor.Begin nestedStart nestedCtx).2 =
      Except.ok (GoContext.mk [CtxVal.txHandle 1, CtxVal.txHandle 0]) ∧
    GetTxFromContext ⟨[CtxVal.txHandle 1, CtxVal.txHandle 0]⟩ = (some 1, none) ∧
    (WithinTransaction nestedStart nestedCtx (fun _ s => (s, none))).1.txs.length = 2 ∧
    ((WithinTransaction nestedStart nestedCtx (fun _ s => (s, none))).1.txs.get? 1).map
      TxRecord.status = some .committed ∧
    ((WithinTransaction nestedStart nestedCtx (fun _ s => (s, none))).1.txs.get? 0).map
      TxRecord.status = some .active :=
  ⟨rfl, rfl, rfl, rfl, rfl⟩

/-! ## Claim theorems: repository -/

/-- Setting a list position to the element it already holds is the
identity. -/
theorem list_set_self_of_getElem {α : Type _} (l : List α) (n : Nat) (a : α)
    (h : l[n]? = some a) : l.set n a = l := by
  induction l generalizing n with
  | nil => simp at h
  | cons x xs ih =>
    cases n with
    | zero => simp_all
    | succ m =>
      simp only [List.getElem?_cons_succ] at h
      simp [List.set, ih m h]

/-- A present index is in range. -/
theorem lt_length_of_getElem {α : Type _} {l : List α} {n : Nat} {a : α}
    (h : l[n]? = some a) : n < l.length :=
  (List.getElem?_eq_some.mp h).1

/-- C6: for every entity equal to the zero value of `T`, `Insert`, `Update`
and `Delete` return the validation error with the store untouched, and
`BatchInsert` of the empty list returns the caller error with the store
untouched — for every context, including one whose transaction value is
corrupt, showing the checks precede connection resolution. -/
theorem write_operations_reject_zero_value {T : Type} [Zero T] [DecidableEq T]
    (d : GormDriver T) (ctx : GoContext) (st : DBState T) (e : T)
    (he : e = 0) :
    Insert ctx e st = (st, .error "model cannot be zero value") ∧
    Update d ctx e st = (st, .error "model cannot be zero value") ∧
    Delete d ctx e st = (st, some "model cannot be zero value") ∧
    BatchInsert ctx ([] : List T) st = (st, .error "inserted models cannot be empty") := by
  subst he
  refine ⟨?_, ?_, ?_, ?_⟩ <;>
    simp [Insert, Update, Delete, BatchInsert, checkZeroValue]

/-- Witness for C6 at `T = Nat`, zero entity `0`, on a context holding a
corrupt transaction value. -/
theorem write_operations_reject_zero_value_witness :
    Insert (T := Nat) ⟨[CtxVal.otherVal]⟩ 0 ⟨[], [], false, false⟩ =
      (⟨[], [], false, false⟩, .error "model cannot be zero value") ∧
    BatchInsert (T := Nat) ⟨[CtxVal.otherVal]⟩ [] ⟨[], [], false, false⟩ =
      (⟨[], [], false, false⟩, .error "inserted models cannot be empty") := by
  have h := write_operations_reject_zero_value (T := Nat)
    ⟨fun _ _ => true, fun l m => l ++ [m], fun l m => l.erase m⟩
    ⟨[CtxVal.otherVal]⟩ ⟨[], [], false, false⟩ 0 rfl
  exact ⟨h.1, h.2.2.2⟩

/-- C7: when the context resolves cleanly and the store is healthy,
`FindFirst` returns the zero value of `T` with no error whenever no row
matches the specification, and it never returns an error — an error can
only arise from a genuine lookup or query failure. -/
theorem findFirst_not_found_is_zero {T : Type} [Zero T] (d : GormDriver T)
    (ctx : GoContext) (spec : Specification T) (st : DBState T)
    (conn : GormConn) (hconn : GetGormInstance ctx = .ok conn)
    (hhealthy : connHealthy st conn = true) :
    (findPipeline d spec (visibleRows st conn) = [] →
      FindFirst d ctx spec st = .ok 0) ∧
    (∀ e, FindFirst d ctx spec st ≠ .error e) := by
  cases conn with
  | base =>
    simp only [connHealthy, Bool.not_eq_true'] at hhealthy
    constructor
    · intro hempty
      simp only [visibleRows] at hempty
      simp [FindFirst, hconn, connFirst, connRead, hhealthy, hempty,
        errRecordNotFound]
    · intro e
      rcases hhead : (findPipeline d spec st.committed).head? with _ | m <;>
        simp [FindFirst, hconn, connFirst, connRead, hhealthy, hhead,
          errRecordNotFound]
  | tx id =>
    simp only [connHealthy, Bool.and_eq_true, Bool.not_eq_true'] at hhealthy
    obtain ⟨hio, hrec⟩ := hhealthy
    rcases hr : st.txs[id]? with _ | r
    · rw [hr] at hrec; simp at hrec
    · rw [hr] at hrec
      have hact : r.status = .active := by
        simpa using hrec
      constructor
      · intro hempty
        simp only [visibleRows, hr] at hempty
        simp [FindFirst, hconn, connFirst, connRead, hr, hact, hio, hempty,
          errRecordNotFound]
      · intro e
        rcases hhead : (findPipeline d spec (st.committed ++ r.pending)).head? with _ | m <;>
          simp [FindFirst, hconn, connFirst, connRead, hr, hact, hio, hhead,
            errRecordNotFound]

/-- Witness for C7: on a store whose only committed row does not match the
example, `FindFirst` returns the zero value with no error. -/
theorem findFirst_not_found_is_zero_witness :
    FindFirst (T := Nat) ⟨fun a b => a == b, fun l m => l ++ [m], fun l m => l.erase m⟩
      ⟨[]⟩ ⟨1, [], false⟩ ⟨[2], [], false, false⟩ = .ok 0 :=
  (findFirst_not_found_is_zero (T := Nat)
    ⟨fun a b => a == b, fun l m => l ++ [m], fun l m => l.erase m⟩
    ⟨[]⟩ ⟨1, [], false⟩ ⟨[2], [], false, false⟩ .base rfl rfl).1 (by decide)

/-- C3: with one and the same repository, driver and store, every operation
— `Insert`, `FindAll`, `FindFirst`, `Update`, `Delete`, `BatchInsert` —
resolves its connection from the context of that very call: a context
carrying Transaction Handle `id` routes the query through the handle
(writes are buffered in the transaction, reads see its pending rows), and
a context without a handle routes it through the base connection (writes
hit the committed rows, reads see only them).  Nothing of the resolution
is cached in the repository value. -/
theorem repository_resolves_connection_per_call {T : Type} [Zero T]
    [DecidableEq T] (d : GormDriver T) (st : DBState T) (id : Nat)
    (r : TxRecord T) (model : T) (models : List T) (spec : Specification T)
    (ctxTx ctxBase : GoContext)
    (hTx : ctxTx.valueTx = some (.txHandle id))
    (hBase : ctxBase.valueTx = none)
    (hr : st.txs[id]? = some r) (hact : r.status = .active)
    (hio : st.ioFail = false) (hm : model ≠ 0) (hms : models ≠ []) :
    GetGormInstance ctxTx = .ok (.tx id) ∧
    GetGormInstance ctxBase = .ok .base ∧
    Insert ctxTx model st =
      (setTx st id { r with pending := r.pending ++ [model] }, .ok model) ∧
    Insert ctxBase model st =
      ({ st with committed := st.committed ++ [model] }, .ok model) ∧
    Update d ctxTx model st =
      (setTx st id { r with pending := d.saveRow r.pending model }, .ok model) ∧
    Update d ctxBase model st =
      ({ st with committed := d.saveRow st.committed model }, .ok model) ∧
    Delete d ctxTx model st =
      (setTx st id { r with pending := d.deleteRow r.pending model }, none) ∧
    Delete d ctxBase model st =
      ({ st with committed := d.deleteRow st.committed model }, none) ∧
    BatchInsert ctxTx models st =
      (setTx st id { r with pending := r.pending ++ models }, .ok models) ∧
    BatchInsert ctxBase models st =
      ({ st with committed := st.committed ++ models }, .ok models) ∧
    FindAll d ctxTx spec st = .ok (findPipeline d spec (st.committed ++ r.pending)) ∧
    FindAll d ctxBase spec st = .ok (findPipeline d spec st.committed) ∧
    FindFirst d ctxTx spec st =
      .ok ((findPipeline d spec (st.committed ++ r.pending)).head?.getD 0) ∧
    FindFirst d ctxBase spec st =
      .ok ((findPipeline d spec st.committed).head?.getD 0) := by
  have hlen : ¬ models.length < 1 := by
    cases models with
    | nil => exact absurd rfl hms
    | cons x xs => simp
  have hffTx : FindFirst d ctxTx spec st =
      .ok ((findPipeline d spec (st.committed ++ r.pending)).head?.getD 0) := by
    rcases hhead : (findPipeline d spec (st.committed ++ r.pending)).head? with _ | m <;>
      simp [FindFirst, GetGormInstance, GetTxFromContext, internalGetTxFromContext,
        hTx, connFirst, connRead, hr, hact, hio, hhead, errRecordNotFound]
  have hffBase : FindFirst d ctxBase spec st =
      .ok ((findPipeline d spec st.committed).head?.getD 0) := by
    rcases hhead : (findPipeline d spec st.committed).head? with _ | m <;>
      simp [FindFirst, GetGormInstance, GetTxFromContext, internalGetTxFromContext,
        hBase, connFirst, connRead, hio, hhead, errRecordNotFound]
  refine ⟨?_, ?_, ?_, ?_, ?_, ?_, ?_, ?_, ?_, ?_, ?_, ?_, hffTx, hffBase⟩ <;>
    simp [GetGormInstance, GetTxFromContext, internalGetTxFromContext,
      hTx, hBase, Insert, Update, Delete, BatchInsert, FindAll,
      checkZeroValue, hm, hlen, connWrite, connRead, hr, hact, hio]

/-- Witness for C3: the same store routes an insert into the transaction's
pending rows under a handle-carrying context and into the committed rows
under a bare context, and the same `FindFirst` call sees the transaction's
pending row under the handle but not through the base connection. -/
theorem repository_resolves_connection_per_call_witness :
    Insert (T := Nat) ⟨[CtxVal.txHandle 0]⟩ 7
      ⟨[1], [⟨.active, [2], false, false⟩], false, false⟩ =
      (⟨[1], [⟨.active, [2, 7], false, false⟩], false, false⟩, .ok 7) ∧
    Insert (T := Nat) ⟨[]⟩ 7
      ⟨[1], [⟨.active, [2], false, false⟩], false, false⟩ =
      (⟨[1, 7], [⟨.active, [2], false, false⟩], false, false⟩, .ok 7) ∧
    FindFirst (T := Nat) ⟨fun a b => a == b, fun l m => l ++ [m], fun l m => l.erase m⟩
      ⟨[CtxVal.txHandle 0]⟩ ⟨2, [], false⟩
      ⟨[1], [⟨.active, [2], false, false⟩], false, false⟩ = .ok 2 ∧
    FindFirst (T := Nat) ⟨fun a b => a == b, fun l m => l ++ [m], fun l m => l.erase m⟩
      ⟨[]⟩ ⟨2, [], false⟩
      ⟨[1], [⟨.active, [2], false, false⟩], false, false⟩ = .ok 0 := by
  have h := repository_resolves_connection_per_call (T := Nat)
    ⟨fun a b => a == b, fun l m => l ++ [m], fun l m => l.erase m⟩
    ⟨[1], [⟨.active, [2], false, false⟩], false, false⟩ 0
    ⟨.active, [2], false, false⟩ 7 [8] ⟨2, [], false⟩
    ⟨[CtxVal.txHandle 0]⟩ ⟨[]⟩ rfl rfl rfl rfl rfl (by decide) (by decide)
  exact ⟨h.2.2.1, h.2.2.2.1, h.2.2.2.2.2.2.2.2.2.2.2.2.1,
    h.2.2.2.2.2.2.2.2.2.2.2.2.2⟩

/-- Inserting rows through a context carrying an active, healthy
transaction handle buffers all of them in that transaction's pending rows
and finishes with the supplied result. -/
theorem insertAll_through_tx {T : Type} [Zero T] [DecidableEq T]
    (res : Option String) (n : Nat) (ctx1 : GoContext)
    (hctx : ctx1.valueTx = some (.txHandle n)) :
    ∀ (rows : List T) (st : DBState T) (p : List T),
      st.txs[n]? = some ⟨.active, p, false, false⟩ →
      st.ioFail = false →
      (∀ m ∈ rows, m ≠ 0) →
      insertAll rows res ctx1 st =
        (setTx st n ⟨.active, p ++ rows, false, false⟩, res) := by
  intro rows
  induction rows with
  | nil =>
    intro st p hr _ _
    have hself : setTx st n (⟨.active, p ++ [], false, false⟩ : TxRecord T) = st := by
      simp only [List.append_nil, setTx, list_set_self_of_getElem _ _ _ hr]
    rw [insertAll, hself]
  | cons m ms ih =>
    intro st p hr hio hrows
    have hm : m ≠ 0 := hrows m (by simp)
    have hlt : n < st.txs.length := lt_length_of_getElem hr
    have hstep : Insert ctx1 m st =
        (setTx st n ⟨.active, p ++ [m], false, false⟩, .ok m) := by
      simp [Insert, checkZeroValue, hm, GetGormInstance, GetTxFromContext,
        internalGetTxFromContext, hctx, connWrite, hr, hio]
    have hr' : (setTx st n (⟨.active, p ++ [m], false, false⟩ : TxRecord T)).txs[n]?
        = some ⟨.active, p ++ [m], false, false⟩ := by
      simp [setTx, List.getElem?_set_self hlt]
    have hio' : (setTx st n (⟨.active, p ++ [m], false, false⟩ : TxRecord T)).ioFail = false := hio
    have hrest : ∀ x ∈ ms, x ≠ (0 : T) := fun x hx => hrows x (by simp [hx])
    rw [insertAll, hstep]
    simp only []
    rw [ih _ _ hr' hio' hrest]
    simp [setTx, List.set_set]

/-- C2: `WithinTransaction` begins a transaction attached to a derived
context and runs the service function against it; when the service
function finishes with an error, that error is returned (wrapped) and the
transaction is rolled back — the committed rows are exactly what they were
before, no row written inside the function is visible; when it finishes
with nil, all rows written inside it are committed exactly once and no
error is returned. -/
theorem withinTransaction_error_rolls_back_success_commits {T : Type}
    [Zero T] [DecidableEq T] (rows : List T) (res : Option String)
    (ctx : GoContext) (st : DBState T)
    (hbegin : st.beginErr = false) (hio : st.ioFail = false)
    (hrows : ∀ m ∈ rows, m ≠ 0) :
    (∀ e, res = some e →
      WithinTransaction st ctx (insertAll rows res) =
        ({ st with txs := (st.txs ++ [(⟨.active, [], false, false⟩ : TxRecord T)]).set st.txs.length ⟨.rolledBack, [], false, false⟩ },
          some (erisWrap e "error executing service function"))) ∧
    (res = none →
      WithinTransaction st ctx (insertAll rows res) =
        ({ st with committed := st.committed ++ rows, txs := (st.txs ++ [(⟨.active, [], false, false⟩ : TxRecord T)]).set st.txs.length ⟨.committed, [], false, false⟩ }, none)) := by
  have hbeg : GormTransactor.Begin st ctx =
      ({ st with txs := st.txs ++ [⟨.active, [], false, false⟩] },
        .ok (ctx.withTxValue (.txHandle st.txs.length))) := by
    simp [GormTransactor.Begin, sqlBegin, hbegin]
  have hctx1 : (ctx.withTxValue (.txHandle st.txs.length)).valueTx
      = some (.txHandle st.txs.length) := rfl
  have hr1 : ({ st with txs := st.txs ++ [⟨.active, [], false, false⟩] }
      : DBState T).txs[st.txs.length]? = some ⟨.active, [], false, false⟩ := by
    simp [List.getElem?_concat_length]
  have hins := insertAll_through_tx res st.txs.length _ hctx1 rows
    { st with txs := st.txs ++ [⟨.active, [], false, false⟩] } [] hr1 hio hrows
  simp only [List.nil_append] at hins
  have hlt1 : st.txs.length <
      ({ st with txs := st.txs ++ [⟨.active, [], false, false⟩] }
        : DBState T).txs.length := by
    simp
  have hr2 : (setTx { st with txs := st.txs ++ [⟨.active, [], false, false⟩] }
        st.txs.length (⟨.active, rows, false, false⟩ : TxRecord T)).txs[st.txs.length]?
      = some ⟨.active, rows, false, false⟩ := by
    simp [setTx, List.getElem?_set_self hlt1]
  constructor
  · rintro e rfl
    have hrb : GormTransactor.Rollback
        (setTx { st with txs := st.txs ++ [⟨.active, [], false, false⟩] }
          st.txs.length (⟨.active, rows, false, false⟩ : TxRecord T))
        (ctx.withTxValue (.txHandle st.txs.length)) =
        ({ st with txs := (st.txs ++ [(⟨.active, [], false, false⟩ : TxRecord T)]).set st.txs.length ⟨.rolledBack, [], false, false⟩ }, []) := by
      simp [GormTransactor.Rollback, GetTxFromContext, internalGetTxFromContext,
        hctx1, sqlRollback, hr2, setTx, List.set_set]
    simp only [WithinTransaction, hbeg, hins, hrb]
  · rintro rfl
    have hcm : GormTransactor.Commit
        (setTx { st with txs := st.txs ++ [⟨.active, [], false, false⟩] }
          st.txs.length (⟨.active, rows, false, false⟩ : TxRecord T))
        (ctx.withTxValue (.txHandle st.txs.length)) =
        ({ st with committed := st.committed ++ rows, txs := (st.txs ++ [(⟨.active, [], false, false⟩ : TxRecord T)]).set st.txs.length ⟨.committed, [], false, false⟩ }, none) := by
      simp [GormTransactor.Commit, GetTxFromContext, internalGetTxFromContext,
        hctx1, sqlCommit, hr2, setTx, List.set_set]
    have hr3 : ({ st with committed := st.committed ++ rows, txs := (st.txs ++ [(⟨.active, [], false, false⟩ : TxRecord T)]).set st.txs.length ⟨.committed, [], false, false⟩ } : DBState T).txs[st.txs.length]? = some ⟨.committed, [], false, false⟩ := by
      simp [List.getElem?_set_self
        (by simp : st.txs.length < ((st.txs ++ [(⟨.active, [], false, false⟩ : TxRecord T)])).length)]
    have hrb2 : GormTransactor.Rollback
        ({ st with committed := st.committed ++ rows, txs := (st.txs ++ [(⟨.active, [], false, false⟩ : TxRecord T)]).set st.txs.length ⟨.committed, [], false, false⟩ } : DBState T)
        (ctx.withTxValue (.txHandle st.txs.length)) =
        ({ st with committed := st.committed ++ rows, txs := (st.txs ++ [(⟨.active, [], false, false⟩ : TxRecord T)]).set st.txs.length ⟨.committed, [], false, false⟩ }, []) := by
      simp [GormTransactor.Rollback, GetTxFromContext, internalGetTxFromContext,
        hctx1, sqlRollback, hr3, errTxDone]
    simp only [WithinTransaction, hbeg, hins, hcm, hrb2]

/-- Witness for C2: inserting row 4 and failing rolls back (row 4 is not
visible and the wrapped error is returned); inserting row 4 and succeeding
commits it exactly once. -/
theorem withinTransaction_error_rolls_back_success_commits_witness :
    WithinTransaction (T := Nat) ⟨[9], [], false, false⟩ ⟨[]⟩
      (insertAll [4] (some "boom")) =
      (⟨[9], [⟨.rolledBack, [], false, false⟩], false, false⟩,
        some (erisWrap "boom" "error executing service function")) ∧
    WithinTransaction (T := Nat) ⟨[9], [], false, false⟩ ⟨[]⟩
      (insertAll [4] none) =
      (⟨[9, 4], [⟨.committed, [], false, false⟩], false, false⟩, none) := by
  have h := withinTransaction_error_rolls_back_success_commits (T := Nat)
    [4] (some "boom") ⟨[]⟩ ⟨[9], [], false, false⟩ rfl rfl (by decide)
  have h2 := withinTransaction_error_rolls_back_success_commits (T := Nat)
    [4] none ⟨[]⟩ ⟨[9], [], false, false⟩ rfl rfl (by decide)
  exact ⟨h.1 "boom" rfl, h2.2 rfl⟩

end Ezutil
